import Mathlib

/-!
Shallow embedding of the enrollment / progress / grading core of the
Skillwise LMS backend (Express + Mongoose, TypeScript).

Conventions of the embedding:
* Mongo ObjectIds are modelled as `Nat`; timestamps (`Date`) as `Nat`.
* A Mongo collection is a `List` of records; `findOne` / `findById`
  become `List.find?` with the corresponding predicate, and the
  mutate-one-document-then-save pattern becomes `updateFirst`, which
  rewrites the first record matched by the same predicate.
* `Math.round` on a nonnegative JS number is Mathlib's `round` on `ℚ`
  (both round half-up), composed with `Int.toNat` to land back in `ℕ`.
* Handlers that answer an HTTP error without writing return the input
  state unchanged together with an `Outcome` tag mirroring the status
  (404 NotFound, 409 Conflict, 403 Forbidden); a thrown TypeError
  (null dereference) is tagged `internal`.
-/

namespace LMS

/-- Role carried on the authenticated request (`req.user.role`). -/
inductive Role where
  | student
  | coach
deriving DecidableEq

/-- Resource type enum from `course.model` (`video` | `document`). -/
inductive ResourceType where
  | video
  | document
deriving DecidableEq

/-- Assignment type enum from `assignment.model` (`mcq` | `subjective`). -/
inductive AssignmentType where
  | mcq
  | subjective
deriving DecidableEq

/-- Interface `IMCQOption`: option text plus the answer-key flag. -/
structure MCQOption where
  text : String
  isCorrect : Bool
deriving DecidableEq

/-- Interface `IMCQQuestion`: question text and its ordered options.
`qid` stands for the `_id` mongoose gives each question subdocument. -/
structure MCQQuestion where
  qid : Nat
  questionText : String
  options : List MCQOption
deriving DecidableEq

/-- Interface `ISubjectiveQuestion`. -/
structure SubjectiveQuestion where
  qid : Nat
  questionText : String
  maxWords : Option Nat
deriving DecidableEq

/-- Interface `IAssignment`.  The optional mongoose array fields `mcqQuestions` /
`subjectiveQuestions` default to `[]`, so they are plain lists here
(the handlers read them through `assignment.mcqQuestions || []`). -/
structure Assignment where
  id : Nat
  title : String
  atype : AssignmentType
  courseId : Nat
  mcqQuestions : List MCQQuestion
  subjectiveQuestions : List SubjectiveQuestion
deriving DecidableEq

/-- A course resource (`video` needs a URL, `document` content; neither
field is consulted by the progress/grading core, so only the parts the
handlers touch are carried). -/
structure Resource where
  rtype : ResourceType
  title : String
deriving DecidableEq

/-- A course module: ordered resources plus an optional assignment ref. -/
structure CourseModule where
  title : String
  order : Nat
  resources : List Resource
  assignmentId : Option Nat
deriving DecidableEq

/-- Interface `ICourse` (fields used by the progress core). -/
structure Course where
  id : Nat
  coachId : Nat
  title : String
  modules : List CourseModule
deriving DecidableEq

/-- Interface `ISubmission` subdocument of Progress. -/
structure Submission where
  id : Nat
  assignmentId : Nat
  submittedAt : Nat
  mcqAnswers : List Int
  subjectiveAnswers : List String
  score : Option Nat
  feedback : Option String
  gradedAt : Option Nat
deriving DecidableEq

/-- Interface `IProgress`: one record per (learner, course) pair. -/
structure ProgressRecord where
  id : Nat
  userId : Nat
  courseId : Nat
  enrolledAt : Nat
  completedAt : Option Nat
  completedVideos : List Nat
  completedDocuments : List Nat
  submissions : List Submission
deriving DecidableEq

/-- Interface `IPath`: ordered list of course ids (`path.courses`). -/
structure LearnPath where
  id : Nat
  createdBy : Nat
  title : String
  courses : List Nat
deriving DecidableEq

/-- Interface `IPathEnrollment`: one record per (learner, path) pair. -/
structure PathEnrollment where
  id : Nat
  userId : Nat
  pathId : Nat
  startedAt : Nat
  completedAt : Option Nat
deriving DecidableEq

/-- The database state: one list per Mongo collection. -/
structure St where
  courses : List Course
  assignments : List Assignment
  progresses : List ProgressRecord
  paths : List LearnPath
  pathEnrollments : List PathEnrollment
deriving DecidableEq

/-- Result of a route handler: the value of a 2xx JSON answer, or the
error status the handler produced instead. -/
inductive Outcome (α : Type) where
  | ok (value : α)
  | notFound
  | conflict
  | forbidden
  | internal
deriving DecidableEq

/-! ## Submission grader (POST /api/progress/submit-mcq, lines 333-346) -/

/-- Lookup `q.options[selectedIdx]` for a JS index that may be negative or past
the end: both give `undefined`, modelled as `none`. -/
def optionAt (options : List MCQOption) (i : Int) : Option MCQOption :=
  if i < 0 then none else options[i.toNat]?

/-- One step of the auto-grade loop:
`selectedIdx !== undefined && q.options[selectedIdx]?.isCorrect`. -/
def questionCorrect (q : MCQQuestion) (sel : Option Int) : Bool :=
  match sel with
  | none => false
  | some a =>
    match optionAt q.options a with
    | some o => o.isCorrect
    | none => false

/-- The `questions.forEach((q, idx) => ...)` accumulation, with `idx`
starting at `n`. -/
def mcqCountFrom (questions : List MCQQuestion) (answers : List Int) (n : Nat) : Nat :=
  match questions with
  | [] => 0
  | q :: rest =>
    (if questionCorrect q answers[n]? then 1 else 0) + mcqCountFrom rest answers (n + 1)

/-- The `correctCount` computed by the submit-mcq handler. -/
def mcqCorrectCount (questions : List MCQQuestion) (answers : List Int) : Nat :=
  mcqCountFrom questions answers 0

/-- Score expression `questions.length > 0 ? Math.round((correctCount / questions.length) * 100) : 0`. -/
def mcqScore (questions : List MCQQuestion) (answers : List Int) : Nat :=
  if 0 < questions.length then
    (round ((mcqCorrectCount questions answers : ℚ) / (questions.length : ℚ) * 100)).toNat
  else 0

/-! ## Generic store helpers -/

/-- The mongoose pattern "find one document, mutate it, `save()`" :
rewrite the first element matched by `p` (the same predicate the
corresponding `find?` used) with `f`. -/
def updateFirst (l : List α) (p : α → Bool) (f : α → α) : List α :=
  match l with
  | [] => []
  | x :: rest => if p x then f x :: rest else x :: updateFirst rest p f

/-- Query `Progress.findOne({ userId, courseId })`. -/
def progressFor (s : St) (uid cid : Nat) : Option ProgressRecord :=
  s.progresses.find? fun p => p.userId == uid && p.courseId == cid

/-- Query `Course.findById(id)`. -/
def findCourse (s : St) (cid : Nat) : Option Course :=
  s.courses.find? fun c => c.id == cid

/-- Query `Assignment.findById(id)`. -/
def findAssignment (s : St) (aid : Nat) : Option Assignment :=
  s.assignments.find? fun a => a.id == aid

/-- Total resource count of a course:
`course.modules?.reduce((acc, m) => acc + (m.resources?.length || 0), 0) || 0`. -/
def resourceTotal (c : Course) : Nat :=
  (c.modules.map fun m => m.resources.length).sum

/-- Sum `p.completedVideos.length + p.completedDocuments.length`. -/
def completedCount (p : ProgressRecord) : Nat :=
  p.completedVideos.length + p.completedDocuments.length

/-- Expression `total > 0 ? Math.round((completed / total) * 100) : 0` — the guarded
percentage expression repeated by the my-courses, my-paths and
path-progress handlers. -/
def progressPct (completed total : Nat) : Nat :=
  if 0 < total then (round ((completed : ℚ) / (total : ℚ) * 100)).toNat else 0

/-! ## POST /api/progress/enroll (lines 185-208) -/

/-- The enroll handler.  `newId` stands for the ObjectId the store mints
for the created record, `now` for the enrollment timestamp default. -/
def enroll (s : St) (uid cid newId now : Nat) : St × Outcome Nat :=
  match findCourse s cid with
  | none => (s, .notFound)
  | some _ =>
    match progressFor s uid cid with
    | some _ => (s, .conflict)
    | none =>
      ({ s with
          progresses := s.progresses ++
            [{ id := newId, userId := uid, courseId := cid, enrolledAt := now,
               completedAt := none, completedVideos := [], completedDocuments := [],
               submissions := [] }] },
       .ok newId)

/-! ## GET /api/progress/my-courses (lines 223-248) -/

/-- The per-enrollment progress percentage of the my-courses handler
(called `computeCourseProgressPercent` by the specification). -/
def computeCourseProgressPercent (p : ProgressRecord) (c : Course) : Nat :=
  progressPct (completedCount p) (resourceTotal c)

/-! ## POST /api/progress/complete-resource (lines 282-305) -/

/-- Statement `if (!progress[field].some((id) => id.equals(r))) progress[field].push(r)`. -/
def addCompleted (p : ProgressRecord) (rid : Nat) (rt : ResourceType) : ProgressRecord :=
  match rt with
  | .video =>
    if p.completedVideos.any fun x => x == rid then p
    else { p with completedVideos := p.completedVideos ++ [rid] }
  | .document =>
    if p.completedDocuments.any fun x => x == rid then p
    else { p with completedDocuments := p.completedDocuments ++ [rid] }

/-- The complete-resource handler. -/
def markResourceComplete (s : St) (uid cid rid : Nat) (rt : ResourceType) :
    St × Outcome Unit :=
  match progressFor s uid cid with
  | none => (s, .notFound)
  | some _ =>
    ({ s with
        progresses := updateFirst s.progresses
          (fun p => p.userId == uid && p.courseId == cid)
          (fun p => addCompleted p rid rt) },
     .ok ())

/-! ## POST /api/progress/submit-mcq (lines 314-364) -/

/-- The JSON body `{ score, correctCount, totalQuestions }`. -/
structure MCQResult where
  score : Nat
  correctCount : Nat
  totalQuestions : Nat
deriving DecidableEq

/-- The submit-mcq handler.  `now` is the submission timestamp, `subId`
the ObjectId minted for the new submission subdocument. -/
def submitMCQ (s : St) (uid cid aid : Nat) (answers : List Int) (now subId : Nat) :
    St × Outcome MCQResult :=
  match progressFor s uid cid with
  | none => (s, .notFound)
  | some _ =>
    match findAssignment s aid with
    | none => (s, .notFound)
    | some a =>
      if a.atype ≠ .mcq then (s, .notFound)
      else
        let questions := a.mcqQuestions
        let cc := mcqCorrectCount questions answers
        let sc := mcqScore questions answers
        ({ s with
            progresses := updateFirst s.progresses
              (fun p => p.userId == uid && p.courseId == cid)
              (fun p =>
                { p with
                    submissions := p.submissions ++
                      [{ id := subId, assignmentId := aid, submittedAt := now,
                         mcqAnswers := answers, subjectiveAnswers := [],
                         score := some sc, feedback := none, gradedAt := none }] }) },
         .ok { score := sc, correctCount := cc, totalQuestions := questions.length })

/-! ## POST /api/progress/submit-subjective (lines 373-400) -/

def submitSubjective (s : St) (uid cid aid : Nat) (answers : List String)
    (now subId : Nat) : St × Outcome Unit :=
  match progressFor s uid cid with
  | none => (s, .notFound)
  | some _ =>
    match findAssignment s aid with
    | none => (s, .notFound)
    | some a =>
      if a.atype ≠ .subjective then (s, .notFound)
      else
        ({ s with
            progresses := updateFirst s.progresses
              (fun p => p.userId == uid && p.courseId == cid)
              (fun p =>
                { p with
                    submissions := p.submissions ++
                      [{ id := subId, assignmentId := aid, submittedAt := now,
                         mcqAnswers := [], subjectiveAnswers := answers,
                         score := none, feedback := none, gradedAt := none }] }) },
         .ok ())

/-! ## PATCH /api/progress/:progressId/submissions/:submissionId/grade (lines 443-468) -/

/-- Statements `if (score !== undefined) submission.score = score;` etc., with
`submission.gradedAt = new Date()` unconditionally. -/
def applyGrade (sub : Submission) (sc : Option Nat) (fb : Option String) (now : Nat) :
    Submission :=
  { sub with
      score := match sc with | some v => some v | none => sub.score,
      feedback := match fb with | some f => some f | none => sub.feedback,
      gradedAt := some now }

/-- The grade handler.  The coach ownership check happens before the
submission lookup exactly as in the source; a progress record whose
course has been deleted makes the source dereference `null.coachId`
(a 500), tagged `internal` here. -/
def gradeSubmission (s : St) (coachId progressId subId : Nat) (sc : Option Nat)
    (fb : Option String) (now : Nat) : St × Outcome Submission :=
  match s.progresses.find? (fun p => p.id == progressId) with
  | none => (s, .notFound)
  | some p =>
    match findCourse s p.courseId with
    | none => (s, .internal)
    | some course =>
      if course.coachId ≠ coachId then (s, .forbidden)
      else
        match p.submissions.find? (fun sub => sub.id == subId) with
        | none => (s, .notFound)
        | some sub =>
          ({ s with
              progresses := updateFirst s.progresses (fun q => q.id == progressId)
                (fun q =>
                  { q with
                      submissions := updateFirst q.submissions
                        (fun x => x.id == subId)
                        (fun x => applyGrade x sc fb now) }) },
           .ok (applyGrade sub sc fb now))

/-! ## GET /api/paths/my-paths (lines 223-281 of path.routes.ts) -/

/-- Query `Path.findById(id)`. -/
def findPath (s : St) (pid : Nat) : Option LearnPath :=
  s.paths.find? fun p => p.id == pid

/-- Query `PathEnrollment.findOne({ userId, pathId })`. -/
def pathEnrollmentFor (s : St) (uid pid : Nat) : Option PathEnrollment :=
  s.pathEnrollments.find? fun e => e.userId == uid && e.pathId == pid

/-- The populated `path.courses` array: ids resolved against the course
collection, unresolvable references dropped (mongoose `populate` on an
array path omits missing documents). -/
def pathCourses (s : St) (path : LearnPath) : List Course :=
  path.courses.filterMap fun cid => findCourse s cid

/-- Completed-resource count contributed by one course of a path:
`courseProgress ? completedVideos.length + completedDocuments.length : 0`. -/
def completedFor (s : St) (uid cid : Nat) : Nat :=
  match progressFor s uid cid with
  | some p => completedCount p
  | none => 0

/-- The `path.courses.forEach` accumulation of the my-paths handler:
running `(totalResources, completedResources)` pair. -/
def pathTotals (s : St) (uid : Nat) (courses : List Course) : Nat × Nat :=
  courses.foldl
    (fun acc course => (acc.1 + resourceTotal course, acc.2 + completedFor s uid course.id))
    (0, 0)

/-- Path-level progress percentage (`progressPercent` in the handler;
`pathProgressPercent` in the specification). -/
def pathProgressPercent (s : St) (uid : Nat) (path : LearnPath) : Nat :=
  let t := pathTotals s uid (pathCourses s path)
  progressPct t.2 t.1

/-! ## GET /api/paths/:id/progress (lines 288-354 of path.routes.ts) -/

/-- One element of the `coursesWithProgress` array of the path-progress
handler (presentation-only fields `description` / `thumbnailUrl` of the
embedded course summary are not carried). -/
structure PathCourseEntry where
  order : Nat
  courseId : Nat
  title : String
  enrolled : Bool
  progress : Nat
  completedAt : Option Nat
deriving DecidableEq

/-- Body of `path.courses.map((course, index) => ...)`. -/
def detailEntry (s : St) (uid : Nat) (i : Nat) (course : Course) : PathCourseEntry :=
  { order := i + 1,
    courseId := course.id,
    title := course.title,
    enrolled := (progressFor s uid course.id).isSome,
    progress := progressPct (completedFor s uid course.id) (resourceTotal course),
    completedAt := (progressFor s uid course.id).bind fun p => p.completedAt }

/-- The path-progress handler (read-only). -/
def pathProgressDetail (s : St) (uid pid : Nat) : Outcome (List PathCourseEntry) :=
  match pathEnrollmentFor s uid pid with
  | none => .notFound
  | some _ =>
    match findPath s pid with
    | none => .notFound
    | some path =>
      .ok ((pathCourses s path).enum.map fun ic => detailEntry s uid ic.1 ic.2)

/-! ## GET /api/assignments/:id and /api/assignments/course/:courseId -/

/-- An MCQ option as serialized for students: `{ text: o.text }`. -/
structure SanOption where
  text : String
deriving DecidableEq

/-- An MCQ question as serialized for students: the spread keeps `_id`
and `questionText`, the options keep only their text. -/
structure SanQuestion where
  qid : Nat
  questionText : String
  options : List SanOption
deriving DecidableEq

/-- An assignment as serialized for students. -/
structure SanAssignment where
  id : Nat
  title : String
  atype : AssignmentType
  courseId : Nat
  mcqQuestions : List SanQuestion
  subjectiveQuestions : List SubjectiveQuestion
deriving DecidableEq

/-- The student sanitization of the assignment read endpoints. -/
def sanitizeAssignment (a : Assignment) : SanAssignment :=
  { id := a.id, title := a.title, atype := a.atype, courseId := a.courseId,
    mcqQuestions := a.mcqQuestions.map fun q =>
      { qid := q.qid, questionText := q.questionText,
        options := q.options.map fun o => { text := o.text } },
    subjectiveQuestions := a.subjectiveQuestions }

/-- What an assignment read endpoint serializes: the raw document for
coaches, the sanitized object for students. -/
inductive AssignmentView where
  | raw (a : Assignment)
  | redacted (v : SanAssignment)
deriving DecidableEq

/-- GET /api/assignments/:id.  A mongoose document's `mcqQuestions`
array is always present (default `[]`, and `[]` is truthy in JS), so
for a student the sanitized branch is always taken. -/
def getAssignment (s : St) (role : Role) (aid : Nat) : Outcome AssignmentView :=
  match findAssignment s aid with
  | none => .notFound
  | some a =>
    if role = .student then .ok (.redacted (sanitizeAssignment a))
    else .ok (.raw a)

/-- GET /api/assignments/course/:courseId. -/
def listCourseAssignments (s : St) (role : Role) (cid : Nat) : List AssignmentView :=
  let found := s.assignments.filter fun a => a.courseId == cid
  if role = .student then found.map fun a => .redacted (sanitizeAssignment a)
  else found.map .raw

/-! ## Concrete fixtures for scenario conjuncts and witnesses -/

/-- Four MCQ questions whose correct options sit at indices `[1, 0, 2, 1]`
(the specification's grading scenario). -/
def exQuestions : List MCQQuestion :=
  [⟨1, "q1", [⟨"a", false⟩, ⟨"b", true⟩, ⟨"c", false⟩]⟩,
   ⟨2, "q2", [⟨"a", true⟩, ⟨"b", false⟩]⟩,
   ⟨3, "q3", [⟨"a", false⟩, ⟨"b", false⟩, ⟨"c", true⟩]⟩,
   ⟨4, "q4", [⟨"a", false⟩, ⟨"b", true⟩]⟩]

/-- The specification's scenario submission `[1, 0, 0, 1]`. -/
def exAnswers : List Int := [1, 0, 0, 1]

/-- A course with two modules holding 3 and 2 resources (the
specification's 5-resource progress scenario). -/
def exCourse : Course :=
  { id := 8, coachId := 2, title := "crs",
    modules :=
      [{ title := "A", order := 0,
         resources := [⟨.video, "r1"⟩, ⟨.video, "r2"⟩, ⟨.document, "r3"⟩],
         assignmentId := none },
       { title := "B", order := 1,
         resources := [⟨.video, "r4"⟩, ⟨.document, "r5"⟩],
         assignmentId := none }] }

/-- Progress with 2 completed videos and 1 completed document. -/
def exProgress : ProgressRecord :=
  { id := 9, userId := 1, courseId := 8, enrolledAt := 0, completedAt := none,
    completedVideos := [101, 102], completedDocuments := [103], submissions := [] }

/-- An MCQ assignment over `exQuestions`. -/
def exAssignment : Assignment :=
  { id := 3, title := "hw", atype := .mcq, courseId := 8,
    mcqQuestions := exQuestions, subjectiveQuestions := [] }

/-- A subjective assignment. -/
def exSubjAssignment : Assignment :=
  { id := 4, title := "essay", atype := .subjective, courseId := 8,
    mcqQuestions := [], subjectiveQuestions := [⟨1, "why", none⟩] }

/-- A freshly enrolled progress record for learner 1 on course 8. -/
def exProgress0 : ProgressRecord :=
  { id := 9, userId := 1, courseId := 8, enrolledAt := 0, completedAt := none,
    completedVideos := [], completedDocuments := [], submissions := [] }

/-- A store with one course, two assignments and one enrollment. -/
def exSubmitSt : St :=
  { courses := [exCourse], assignments := [exAssignment, exSubjAssignment],
    progresses := [exProgress0], paths := [], pathEnrollments := [] }

/-- A stored subjective submission that already carries a grade. -/
def exGradedSub : Submission :=
  { id := 5, assignmentId := 3, submittedAt := 2, mcqAnswers := [],
    subjectiveAnswers := ["ans"], score := some 40, feedback := some "old",
    gradedAt := none }

/-- A progress record holding `exGradedSub`. -/
def exGradeProgress : ProgressRecord :=
  { id := 9, userId := 1, courseId := 8, enrolledAt := 0, completedAt := none,
    completedVideos := [], completedDocuments := [], submissions := [exGradedSub] }

/-- A store ready for grading: course 8 belongs to coach 2. -/
def exGradeSt : St :=
  { courses := [exCourse], assignments := [], progresses := [exGradeProgress],
    paths := [], pathEnrollments := [] }

/-- State `exGradeSt` after grading submission 5 with score 70 / "good" at time 50. -/
def exGradeSt1 : St :=
  { courses := [exCourse], assignments := [],
    progresses :=
      [{ exGradeProgress with
          submissions :=
            [{ id := 5, assignmentId := 3, submittedAt := 2, mcqAnswers := [],
               subjectiveAnswers := ["ans"], score := some 70, feedback := some "good",
               gradedAt := some 50 }] }],
    paths := [], pathEnrollments := [] }

/-- State `exGradeSt1` after re-grading submission 5 with score 80 / "better" at time 60. -/
def exGradeSt2 : St :=
  { courses := [exCourse], assignments := [],
    progresses :=
      [{ exGradeProgress with
          submissions :=
            [{ id := 5, assignmentId := 3, submittedAt := 2, mcqAnswers := [],
               subjectiveAnswers := ["ans"], score := some 80, feedback := some "better",
               gradedAt := some 60 }] }],
    paths := [], pathEnrollments := [] }

/-- State `exGradeSt` after a grade call that supplies neither score nor
feedback at time 99: only `gradedAt` changes. -/
def exGradeStAfter : St :=
  { courses := [exCourse], assignments := [],
    progresses :=
      [{ exGradeProgress with
          submissions :=
            [{ id := 5, assignmentId := 3, submittedAt := 2, mcqAnswers := [],
               subjectiveAnswers := ["ans"], score := some 40, feedback := some "old",
               gradedAt := some 99 }] }],
    paths := [], pathEnrollments := [] }

/-- A second course (1 resource) that learner 1 has not enrolled in. -/
def exCourse2 : Course :=
  { id := 90, coachId := 2, title := "crs2",
    modules := [{ title := "M", order := 0, resources := [⟨.video, "v"⟩],
                  assignmentId := none }] }

/-- A path holding courses 8 and 90 in that order. -/
def exPath : LearnPath :=
  { id := 30, createdBy := 2, title := "path", courses := [8, 90] }

/-- A store where learner 1 started `exPath` and is enrolled in course 8
only (with `exProgress`: 2 videos + 1 document done). -/
def exPathSt : St :=
  { courses := [exCourse, exCourse2], assignments := [], progresses := [exProgress],
    paths := [exPath],
    pathEnrollments := [{ id := 40, userId := 1, pathId := 30, startedAt := 0,
                          completedAt := none }] }

/-- An MCQ assignment whose first option is the correct one. -/
def exA1 : Assignment :=
  { id := 3, title := "hw", atype := .mcq, courseId := 8,
    mcqQuestions := [⟨1, "q", [⟨"a", true⟩, ⟨"b", false⟩]⟩],
    subjectiveQuestions := [] }

/-- The same assignment with the answer key moved to the second option. -/
def exA2 : Assignment :=
  { id := 3, title := "hw", atype := .mcq, courseId := 8,
    mcqQuestions := [⟨1, "q", [⟨"a", false⟩, ⟨"b", true⟩]⟩],
    subjectiveQuestions := [] }

/-- Stores differing only in the answer key of assignment 3. -/
def exStKey1 : St :=
  { courses := [], assignments := [exA1], progresses := [], paths := [],
    pathEnrollments := [] }

/-- See `exStKey1`. -/
def exStKey2 : St :=
  { courses := [], assignments := [exA2], progresses := [], paths := [],
    pathEnrollments := [] }

/-! ## Specification-side predicates (used only in theorem statements) -/

/-- The specification's grading criterion for one pair of (question slot,
answer slot): the answer is defined, the question exists, and the selected
option exists and is marked correct. -/
def pairCorrect (qo : Option MCQQuestion) (ao : Option Int) : Prop :=
  ∃ a q o, ao = some a ∧ qo = some q ∧ 0 ≤ a ∧
    q.options[a.toNat]? = some o ∧ o.isCorrect = true

instance instDecidablePairCorrect (qo : Option MCQQuestion) (ao : Option Int) :
    Decidable (pairCorrect qo ao) :=
  decidable_of_iff ((match qo with
    | some q => questionCorrect q ao
    | none => false) = true) (by
      cases qo with
      | none => simp [pairCorrect]
      | some q =>
        cases ao with
        | none => simp [questionCorrect, pairCorrect]
        | some a =>
          constructor
          · intro h
            by_cases ha : a < 0
            · exfalso
              simp only [questionCorrect, optionAt, if_pos ha] at h
              exact Bool.noConfusion h
            · have h0 : 0 ≤ a := le_of_not_lt ha
              simp only [questionCorrect, optionAt, if_neg ha] at h
              cases ho : q.options[a.toNat]? with
              | none => rw [ho] at h; exact absurd h (by simp)
              | some o =>
                rw [ho] at h
                exact ⟨a, q, o, rfl, rfl, h0, ho, h⟩
          · rintro ⟨a', q', o, ha', hq', h0, ho, hc⟩
            cases ha'
            cases hq'
            simp only [questionCorrect, optionAt, if_neg (not_lt.mpr h0), ho]
            exact hc)

/-- The specification's criterion at question index `i`: `answers[i]` is
defined and `questions[i].options[answers[i]].isCorrect` is true (with
missing or out-of-range indices counting as incorrect). -/
def specCorrectAt (questions : List MCQQuestion) (answers : List Int) (i : Nat) : Prop :=
  pairCorrect questions[i]? answers[i]?

instance (questions : List MCQQuestion) (answers : List Int) (i : Nat) :
    Decidable (specCorrectAt questions answers i) :=
  instDecidablePairCorrect questions[i]? answers[i]?

/-- Two MCQ options that agree on everything the student may see. -/
def OptionKeyEquiv (o1 o2 : MCQOption) : Prop := o1.text = o2.text

/-- Two MCQ questions that differ at most in which options are marked
correct. -/
def QuestionKeyEquiv (q1 q2 : MCQQuestion) : Prop :=
  q1.qid = q2.qid ∧ q1.questionText = q2.questionText ∧
  List.Forall₂ OptionKeyEquiv q1.options q2.options

/-- Two assignments that differ at most in which options are marked
correct. -/
def AssignmentKeyEquiv (a1 a2 : Assignment) : Prop :=
  a1.id = a2.id ∧ a1.title = a2.title ∧ a1.atype = a2.atype ∧
  a1.courseId = a2.courseId ∧ a1.subjectiveQuestions = a2.subjectiveQuestions ∧
  List.Forall₂ QuestionKeyEquiv a1.mcqQuestions a2.mcqQuestions

/-! ## General lemmas -/

theorem round_toNat_int (x : ℚ) (hx : 0 ≤ x) : (((round x).toNat : ℤ)) = round x := by
  refine Int.toNat_of_nonneg ?_
  rw [round_eq]
  exact Int.floor_nonneg.mpr (by linarith)

theorem progressPct_eq_round (completed total : Nat) (ht : 0 < total) :
    (progressPct completed total : ℤ) =
      round ((completed : ℚ) / (total : ℚ) * 100) := by
  rw [progressPct, if_pos ht]
  refine round_toNat_int _ ?_
  positivity

theorem progressPct_total_zero (completed : Nat) : progressPct completed 0 = 0 := by
  simp [progressPct]

theorem progressPct_completed_zero (total : Nat) : progressPct 0 total = 0 := by
  rw [progressPct]
  split
  · norm_num
  · rfl

theorem find?_eq_some_split {α : Type} (l : List α) (p : α → Bool) (a : α)
    (h : l.find? p = some a) :
    p a = true ∧ ∃ l1 l2, l = l1 ++ a :: l2 ∧ ∀ x ∈ l1, p x = false := by
  induction l with
  | nil => simp at h
  | cons x rest ih =>
    by_cases hx : p x = true
    · rw [List.find?_cons_of_pos _ hx] at h
      cases h
      exact ⟨hx, [], rest, rfl, by simp⟩
    · rw [List.find?_cons_of_neg _ (by simpa using hx)] at h
      obtain ⟨hpa, l1, l2, hsplit, hl1⟩ := ih h
      refine ⟨hpa, x :: l1, l2, by rw [hsplit]; rfl, ?_⟩
      intro y hy
      rcases List.mem_cons.mp hy with rfl | hy
      · simpa using hx
      · exact hl1 y hy

theorem find?_append_cons {α : Type} (l1 l2 : List α) (p : α → Bool) (a : α)
    (hl1 : ∀ x ∈ l1, p x = false) (ha : p a = true) :
    (l1 ++ a :: l2).find? p = some a := by
  induction l1 with
  | nil => simpa using List.find?_cons_of_pos _ ha
  | cons x rest ih =>
    have hx : p x = false := hl1 x (by simp)
    rw [List.cons_append, List.find?_cons_of_neg _ (by simp [hx])]
    exact ih fun y hy => hl1 y (by simp [hy])

theorem updateFirst_append_cons {α : Type} (l1 l2 : List α) (p : α → Bool) (f : α → α)
    (a : α) (hl1 : ∀ x ∈ l1, p x = false) (ha : p a = true) :
    updateFirst (l1 ++ a :: l2) p f = l1 ++ f a :: l2 := by
  induction l1 with
  | nil => simp [updateFirst, ha]
  | cons x rest ih =>
    have hx : p x = false := hl1 x (by simp)
    rw [List.cons_append, updateFirst, if_neg (by simp [hx])]
    rw [ih fun y hy => hl1 y (by simp [hy])]
    rfl

theorem find?_updateFirst_of_found {α : Type} (l : List α) (p : α → Bool) (f : α → α)
    (a : α) (h : l.find? p = some a) (hfa : p (f a) = true) :
    (updateFirst l p f).find? p = some (f a) := by
  obtain ⟨hpa, l1, l2, rfl, hl1⟩ := find?_eq_some_split _ _ _ h
  rw [updateFirst_append_cons _ _ _ _ _ hl1 hpa]
  exact find?_append_cons _ _ _ _ hl1 hfa

theorem pairCorrect_iff (qo : Option MCQQuestion) (ao : Option Int) :
    pairCorrect qo ao ↔
      (match qo with | some q => questionCorrect q ao | none => false) = true := by
  cases qo with
  | none => simp [pairCorrect]
  | some q =>
    cases ao with
    | none => simp [questionCorrect, pairCorrect]
    | some a =>
      constructor
      · rintro ⟨a', q', o, ha', hq', h0, ho, hc⟩
        cases ha'
        cases hq'
        simp only [questionCorrect, optionAt, if_neg (not_lt.mpr h0), ho]
        exact hc
      · intro h
        by_cases ha : a < 0
        · exfalso
          simp only [questionCorrect, optionAt, if_pos ha] at h
          exact Bool.noConfusion h
        · have h0 : 0 ≤ a := le_of_not_lt ha
          simp only [questionCorrect, optionAt, if_neg ha] at h
          cases ho : q.options[a.toNat]? with
          | none => rw [ho] at h; exact absurd h (by simp)
          | some o =>
            rw [ho] at h
            exact ⟨a, q, o, rfl, rfl, h0, ho, h⟩

theorem decide_pairCorrect (qo : Option MCQQuestion) (ao : Option Int) :
    decide (pairCorrect qo ao) =
      (match qo with | some q => questionCorrect q ao | none => false) := by
  by_cases h : pairCorrect qo ao
  · rw [decide_eq_true h]
    exact ((pairCorrect_iff qo ao).mp h).symm
  · rw [decide_eq_false h]
    exact (Bool.eq_false_iff.mpr fun hb => h ((pairCorrect_iff qo ao).mpr hb)).symm

theorem mcqCountFrom_eq_countP (questions : List MCQQuestion) (answers : List Int) :
    ∀ n, mcqCountFrom questions answers n =
      (List.range questions.length).countP
        fun i => decide (pairCorrect questions[i]? answers[n + i]?) := by
  induction questions with
  | nil => intro n; simp [mcqCountFrom]
  | cons q rest ih =>
    intro n
    rw [mcqCountFrom, ih (n + 1), List.length_cons, List.range_succ_eq_map,
      List.countP_cons, List.countP_map]
    have h0 : (decide (pairCorrect (q :: rest)[(0 : Nat)]? answers[n + 0]?))
        = questionCorrect q answers[n]? := by
      rw [decide_pairCorrect]
      simp
    have hcongr :
        (List.range rest.length).countP
            ((fun i => decide (pairCorrect (q :: rest)[i]? answers[n + i]?)) ∘ Nat.succ)
          = (List.range rest.length).countP
            fun i => decide (pairCorrect rest[i]? answers[n + 1 + i]?) := by
      apply List.countP_congr
      intro i _
      have harith : n + (i + 1) = n + 1 + i := by omega
      simp [Function.comp, Nat.succ_eq_add_one, harith]
    rw [hcongr, h0]
    omega

/-- Claim C1: the submit-MCQ grader counts exactly the question indices
`i` for which `answers[i]` is defined and
`questions[i].options[answers[i]].isCorrect` is true (missing or
out-of-range answers count as incorrect and never raise an error), and
the score is `round(correctCount / totalQuestions * 100)`, with score 0
when there are no questions. -/
theorem submit_mcq_grading_spec (questions : List MCQQuestion) (answers : List Int) :
    (mcqCorrectCount questions answers =
      (List.range questions.length).countP
        fun i => decide (specCorrectAt questions answers i))
    ∧ (questions.length = 0 → mcqScore questions answers = 0)
    ∧ (0 < questions.length →
        (mcqScore questions answers : ℤ) =
          round ((mcqCorrectCount questions answers : ℚ) / (questions.length : ℚ) * 100)) := by
  refine ⟨?_, ?_, ?_⟩
  · rw [mcqCorrectCount, mcqCountFrom_eq_countP]
    apply List.countP_congr
    intro i _
    simp [specCorrectAt]
  · intro h
    rw [mcqScore, if_neg (by omega)]
  · intro h
    rw [mcqScore, if_pos h]
    exact round_toNat_int _ (by positivity)

theorem progressPct_eval (c t r : Nat) (ht : 0 < t)
    (h : round ((c : ℚ) / (t : ℚ) * 100) = (r : ℤ)) : progressPct c t = r := by
  rw [progressPct, if_pos ht, h]
  exact Int.toNat_natCast r

theorem mcqScore_eval (qs : List MCQQuestion) (ans : List Int) (r : Nat)
    (ht : 0 < qs.length)
    (h : round ((mcqCorrectCount qs ans : ℚ) / (qs.length : ℚ) * 100) = (r : ℤ)) :
    mcqScore qs ans = r := by
  rw [mcqScore, if_pos ht, h]
  exact Int.toNat_natCast r

/-- Witness for C1, on the specification's own scenario: four questions
whose correct options sit at indices `[1, 0, 2, 1]`, submission
`[1, 0, 0, 1]` — three correct, score 75. -/
theorem submit_mcq_grading_spec_witness :
    0 < exQuestions.length
    ∧ (mcqScore exQuestions exAnswers : ℤ) =
        round ((mcqCorrectCount exQuestions exAnswers : ℚ) / (exQuestions.length : ℚ) * 100)
    ∧ mcqScore exQuestions exAnswers = 75
    ∧ mcqCorrectCount exQuestions exAnswers = 3 :=
  ⟨by decide,
   (submit_mcq_grading_spec exQuestions exAnswers).2.2 (by decide),
   mcqScore_eval _ _ 75 (by decide)
     (by rw [(by decide : mcqCorrectCount exQuestions exAnswers = 3),
             (by decide : exQuestions.length = 4)]
         push_cast
         norm_num),
   by decide⟩

/-- Claim C2: course progress percent is
`round(completed / total * 100)` where `total` sums resource-list
lengths over all modules and `completed` adds the two completion-set
sizes; it is 0 when the course has no resources; a 5-resource course
with 2 completed videos and 1 completed document yields 60. -/
theorem course_progress_percent_spec (p : ProgressRecord) (c : Course) :
    (resourceTotal c = 0 → computeCourseProgressPercent p c = 0)
    ∧ (0 < resourceTotal c →
        (computeCourseProgressPercent p c : ℤ) =
          round ((completedCount p : ℚ) / (resourceTotal c : ℚ) * 100))
    ∧ computeCourseProgressPercent exProgress exCourse = 60 := by
  refine ⟨?_, ?_, ?_⟩
  · intro h
    rw [computeCourseProgressPercent, h]
    exact progressPct_total_zero _
  · intro h
    exact progressPct_eq_round _ _ h
  · rw [computeCourseProgressPercent,
        (by decide : completedCount exProgress = 3),
        (by decide : resourceTotal exCourse = 5)]
    exact progressPct_eval 3 5 60 (by norm_num) (by push_cast; norm_num)

/-- Witness for C2: the round-half-up characterization applied to the
concrete 5-resource course of the specification scenario. -/
theorem course_progress_percent_spec_witness :
    0 < resourceTotal exCourse
    ∧ (computeCourseProgressPercent exProgress exCourse : ℤ) =
        round ((completedCount exProgress : ℚ) / (resourceTotal exCourse : ℚ) * 100) :=
  ⟨by decide, (course_progress_percent_spec exProgress exCourse).2.1 (by decide)⟩

/-- Claim C4: enroll fails with NotFound when the course is absent,
fails with Conflict — leaving the state unchanged, hence no duplicate
record — when a Progress record for the (learner, course) pair already
exists, and otherwise appends exactly one Progress record with empty
completion sets and an empty submission list. -/
theorem enroll_spec (s : St) (uid cid newId now : Nat) :
    (findCourse s cid = none → enroll s uid cid newId now = (s, Outcome.notFound))
    ∧ (findCourse s cid ≠ none → ∀ p, progressFor s uid cid = some p →
        enroll s uid cid newId now = (s, Outcome.conflict))
    ∧ (findCourse s cid ≠ none → progressFor s uid cid = none →
        enroll s uid cid newId now =
          ({ s with progresses := s.progresses ++
              [{ id := newId, userId := uid, courseId := cid, enrolledAt := now,
                 completedAt := none, completedVideos := [], completedDocuments := [],
                 submissions := [] }] }, Outcome.ok newId)) := by
  refine ⟨?_, ?_, ?_⟩
  · intro h
    unfold enroll
    rw [h]
  · intro h p hp
    cases hc : findCourse s cid with
    | none => exact absurd hc h
    | some c =>
      unfold enroll
      rw [hc, hp]
  · intro h hp
    cases hc : findCourse s cid with
    | none => exact absurd hc h
    | some c =>
      unfold enroll
      rw [hc, hp]

/-- Witness for C4: a one-course store; enrolling a fresh learner
creates the blank record, enrolling again reports Conflict with the
state unchanged. -/
theorem enroll_spec_witness :
    (findCourse
        { courses := [{ id := 8, coachId := 2, title := "crs", modules := [] }],
          assignments := [], progresses := [], paths := [], pathEnrollments := [] } 8 ≠ none)
    ∧ progressFor
        { courses := [{ id := 8, coachId := 2, title := "crs", modules := [] }],
          assignments := [], progresses := [], paths := [], pathEnrollments := [] } 1 8 = none
    ∧ enroll
        { courses := [{ id := 8, coachId := 2, title := "crs", modules := [] }],
          assignments := [], progresses := [], paths := [], pathEnrollments := [] } 1 8 9 0 =
      ({ courses := [{ id := 8, coachId := 2, title := "crs", modules := [] }],
         assignments := [],
         progresses := [{ id := 9, userId := 1, courseId := 8, enrolledAt := 0,
                          completedAt := none, completedVideos := [],
                          completedDocuments := [], submissions := [] }],
         paths := [], pathEnrollments := [] }, Outcome.ok 9) :=
  ⟨by decide, by decide,
   (enroll_spec
      { courses := [{ id := 8, coachId := 2, title := "crs", modules := [] }],
        assignments := [], progresses := [], paths := [], pathEnrollments := [] }
      1 8 9 0).2.2 (by decide) (by decide)⟩

theorem addCompleted_userId (p : ProgressRecord) (rid : Nat) (rt : ResourceType) :
    (addCompleted p rid rt).userId = p.userId := by
  cases rt <;> simp only [addCompleted] <;> split <;> rfl

theorem addCompleted_courseId (p : ProgressRecord) (rid : Nat) (rt : ResourceType) :
    (addCompleted p rid rt).courseId = p.courseId := by
  cases rt <;> simp only [addCompleted] <;> split <;> rfl

theorem addCompleted_idem (p : ProgressRecord) (rid : Nat) (rt : ResourceType) :
    addCompleted (addCompleted p rid rt) rid rt = addCompleted p rid rt := by
  cases rt with
  | video =>
    by_cases h : p.completedVideos.any fun x => x == rid
    · simp [addCompleted, h]
    · simp [addCompleted, h, List.any_append]
  | document =>
    by_cases h : p.completedDocuments.any fun x => x == rid
    · simp [addCompleted, h]
    · simp [addCompleted, h, List.any_append]

theorem addCompleted_mem_video (p : ProgressRecord) (rid : Nat) :
    rid ∈ (addCompleted p rid .video).completedVideos := by
  by_cases h : p.completedVideos.any fun x => x == rid
  · simp only [addCompleted, if_pos h]
    simp only [List.any_eq_true, beq_iff_eq] at h
    obtain ⟨x, hx, rfl⟩ := h
    exact hx
  · simp [addCompleted, h]

theorem addCompleted_mem_document (p : ProgressRecord) (rid : Nat) :
    rid ∈ (addCompleted p rid .document).completedDocuments := by
  by_cases h : p.completedDocuments.any fun x => x == rid
  · simp only [addCompleted, if_pos h]
    simp only [List.any_eq_true, beq_iff_eq] at h
    obtain ⟨x, hx, rfl⟩ := h
    exact hx
  · simp [addCompleted, h]

theorem addCompleted_video_docs (p : ProgressRecord) (rid : Nat) :
    (addCompleted p rid .video).completedDocuments = p.completedDocuments := by
  simp only [addCompleted]
  split <;> rfl

theorem addCompleted_document_videos (p : ProgressRecord) (rid : Nat) :
    (addCompleted p rid .document).completedVideos = p.completedVideos := by
  simp only [addCompleted]
  split <;> rfl

/-- Claim C3: marking a resource complete requires an existing Progress
record (NotFound otherwise), adds the resource id to the completion set
matching the resource type without touching the other set, reports
success even for a duplicate, and is idempotent — the second identical
call returns the exact same state. -/
theorem mark_resource_complete_spec (s : St) (uid cid rid : Nat) (rt : ResourceType) :
    (progressFor s uid cid = none →
      markResourceComplete s uid cid rid rt = (s, Outcome.notFound))
    ∧ (∀ p, progressFor s uid cid = some p →
        (markResourceComplete s uid cid rid rt).2 = Outcome.ok ()
        ∧ progressFor (markResourceComplete s uid cid rid rt).1 uid cid =
            some (addCompleted p rid rt)
        ∧ (rt = .video → rid ∈ (addCompleted p rid rt).completedVideos
            ∧ (addCompleted p rid rt).completedDocuments = p.completedDocuments)
        ∧ (rt = .document → rid ∈ (addCompleted p rid rt).completedDocuments
            ∧ (addCompleted p rid rt).completedVideos = p.completedVideos)
        ∧ markResourceComplete (markResourceComplete s uid cid rid rt).1 uid cid rid rt =
            ((markResourceComplete s uid cid rid rt).1, Outcome.ok ())) := by
  constructor
  · intro h
    unfold markResourceComplete
    rw [h]
  · intro p hp
    have hkey : (fun q : ProgressRecord => q.userId == uid && q.courseId == cid) p = true :=
      (find?_eq_some_split _ _ _ hp).1
    have hkeyf : ∀ q : ProgressRecord,
        (fun q : ProgressRecord => q.userId == uid && q.courseId == cid) (addCompleted q rid rt) =
          (fun q : ProgressRecord => q.userId == uid && q.courseId == cid) q := by
      intro q
      simp only [addCompleted_userId, addCompleted_courseId]
    obtain ⟨_, l1, l2, hsplit, hl1⟩ := find?_eq_some_split _ _ _ hp
    have hupd : updateFirst s.progresses
        (fun q => q.userId == uid && q.courseId == cid)
        (fun q => addCompleted q rid rt) = l1 ++ addCompleted p rid rt :: l2 := by
      rw [hsplit]
      exact updateFirst_append_cons _ _ _ _ _ hl1 hkey
    have hrun : markResourceComplete s uid cid rid rt =
        ({ s with progresses := l1 ++ addCompleted p rid rt :: l2 }, Outcome.ok ()) := by
      unfold markResourceComplete
      rw [show progressFor s uid cid = some p from hp, hupd]
    have hkeyfp : (fun q : ProgressRecord => q.userId == uid && q.courseId == cid)
        (addCompleted p rid rt) = true := by
      rw [hkeyf]
      exact hkey
    have hfind1 : progressFor { s with progresses := l1 ++ addCompleted p rid rt :: l2 }
        uid cid = some (addCompleted p rid rt) := by
      unfold progressFor
      exact find?_append_cons _ _ _ _ hl1 hkeyfp
    refine ⟨by rw [hrun], by rw [hrun]; exact hfind1, ?_, ?_, ?_⟩
    · rintro rfl
      exact ⟨addCompleted_mem_video p rid, addCompleted_video_docs p rid⟩
    · rintro rfl
      exact ⟨addCompleted_mem_document p rid, addCompleted_document_videos p rid⟩
    · rw [hrun]
      unfold markResourceComplete
      rw [hfind1]
      rw [show updateFirst (l1 ++ addCompleted p rid rt :: l2)
            (fun q => q.userId == uid && q.courseId == cid)
            (fun q => addCompleted q rid rt) = l1 ++ addCompleted p rid rt :: l2 from by
        rw [updateFirst_append_cons _ _ _ _ _ hl1 hkeyfp, addCompleted_idem]]

/-- Witness for C3: one enrolled learner; the video id 101 is added by
the first call and the second identical call is a no-op success. -/
theorem mark_resource_complete_spec_witness :
    progressFor
        { courses := [], assignments := [],
          progresses := [{ id := 9, userId := 1, courseId := 8, enrolledAt := 0,
                           completedAt := none, completedVideos := [],
                           completedDocuments := [], submissions := [] }],
          paths := [], pathEnrollments := [] } 1 8 =
      some { id := 9, userId := 1, courseId := 8, enrolledAt := 0,
             completedAt := none, completedVideos := [],
             completedDocuments := [], submissions := [] }
    ∧ (markResourceComplete
        { courses := [], assignments := [],
          progresses := [{ id := 9, userId := 1, courseId := 8, enrolledAt := 0,
                           completedAt := none, completedVideos := [],
                           completedDocuments := [], submissions := [] }],
          paths := [], pathEnrollments := [] } 1 8 101 .video).2 = Outcome.ok ()
    ∧ markResourceComplete
        (markResourceComplete
          { courses := [], assignments := [],
            progresses := [{ id := 9, userId := 1, courseId := 8, enrolledAt := 0,
                             completedAt := none, completedVideos := [],
                             completedDocuments := [], submissions := [] }],
            paths := [], pathEnrollments := [] } 1 8 101 .video).1 1 8 101 .video =
      ((markResourceComplete
          { courses := [], assignments := [],
            progresses := [{ id := 9, userId := 1, courseId := 8, enrolledAt := 0,
                             completedAt := none, completedVideos := [],
                             completedDocuments := [], submissions := [] }],
            paths := [], pathEnrollments := [] } 1 8 101 .video).1, Outcome.ok ()) := by
  have h := (mark_resource_complete_spec
      { courses := [], assignments := [],
        progresses := [{ id := 9, userId := 1, courseId := 8, enrolledAt := 0,
                         completedAt := none, completedVideos := [],
                         completedDocuments := [], submissions := [] }],
        paths := [], pathEnrollments := [] } 1 8 101 .video).2
      { id := 9, userId := 1, courseId := 8, enrolledAt := 0,
        completedAt := none, completedVideos := [],
        completedDocuments := [], submissions := [] } (by decide)
  exact ⟨by decide, h.1, h.2.2.2.2⟩

theorem progressFor_updateFirst (s : St) (uid cid : Nat)
    (f : ProgressRecord → ProgressRecord)
    (hf : ∀ q, (f q).userId = q.userId ∧ (f q).courseId = q.courseId)
    (p : ProgressRecord) (hp : progressFor s uid cid = some p) :
    progressFor
      { s with
          progresses :=
            updateFirst s.progresses (fun q => q.userId == uid && q.courseId == cid) f }
      uid cid = some (f p) := by
  have hkey := (find?_eq_some_split _ _ _ hp).1
  have hkeyfp : (fun q : ProgressRecord => q.userId == uid && q.courseId == cid) (f p)
      = true := by
    simp only [(hf p).1, (hf p).2]
    exact hkey
  exact find?_updateFirst_of_found _ _ _ _ hp hkeyfp

theorem submitMCQ_run (s : St) (uid cid aid : Nat) (answers : List Int) (now subId : Nat)
    (p : ProgressRecord) (a : Assignment) (hp : progressFor s uid cid = some p)
    (ha : findAssignment s aid = some a) (ht : a.atype = .mcq) :
    submitMCQ s uid cid aid answers now subId =
      ({ s with
          progresses :=
            updateFirst s.progresses (fun q => q.userId == uid && q.courseId == cid)
              (fun q =>
                { q with
                    submissions := q.submissions ++
                      [{ id := subId, assignmentId := aid, submittedAt := now,
                         mcqAnswers := answers, subjectiveAnswers := [],
                         score := some (mcqScore a.mcqQuestions answers),
                         feedback := none, gradedAt := none }] }) },
       Outcome.ok { score := mcqScore a.mcqQuestions answers,
                    correctCount := mcqCorrectCount a.mcqQuestions answers,
                    totalQuestions := a.mcqQuestions.length }) := by
  simp only [submitMCQ, hp, ha]
  rw [if_neg (by simp [ht])]

theorem submitSubjective_run (s : St) (uid cid aid : Nat) (answers : List String)
    (now subId : Nat) (p : ProgressRecord) (a : Assignment)
    (hp : progressFor s uid cid = some p) (ha : findAssignment s aid = some a)
    (ht : a.atype = .subjective) :
    submitSubjective s uid cid aid answers now subId =
      ({ s with
          progresses :=
            updateFirst s.progresses (fun q => q.userId == uid && q.courseId == cid)
              (fun q =>
                { q with
                    submissions := q.submissions ++
                      [{ id := subId, assignmentId := aid, submittedAt := now,
                         mcqAnswers := [], subjectiveAnswers := answers,
                         score := none, feedback := none, gradedAt := none }] }) },
       Outcome.ok ()) := by
  simp only [submitSubjective, hp, ha]
  rw [if_neg (by simp [ht])]

/-- Claim C5: submitting an MCQ or subjective assignment fails with
NotFound when the Progress record, the assignment, or the matching
assignment type is absent; on success exactly one new Submission is
appended to the record's submission list — with the grader's score
stored inline for MCQ and no score for subjective — and a second
submission to the same assignment appends another Submission while
leaving the first one unchanged. -/
theorem submit_ops_spec (s : St) (uid cid aid : Nat) (ansM ansM2 : List Int)
    (ansS : List String) (now subId now2 subId2 : Nat) :
    (progressFor s uid cid = none →
      submitMCQ s uid cid aid ansM now subId = (s, Outcome.notFound)
      ∧ submitSubjective s uid cid aid ansS now subId = (s, Outcome.notFound))
    ∧ (∀ p, progressFor s uid cid = some p → findAssignment s aid = none →
      submitMCQ s uid cid aid ansM now subId = (s, Outcome.notFound)
      ∧ submitSubjective s uid cid aid ansS now subId = (s, Outcome.notFound))
    ∧ (∀ p a, progressFor s uid cid = some p → findAssignment s aid = some a →
      (a.atype ≠ .mcq → submitMCQ s uid cid aid ansM now subId = (s, Outcome.notFound))
      ∧ (a.atype ≠ .subjective →
          submitSubjective s uid cid aid ansS now subId = (s, Outcome.notFound)))
    ∧ (∀ p a, progressFor s uid cid = some p → findAssignment s aid = some a →
        a.atype = .mcq →
      (submitMCQ s uid cid aid ansM now subId).2 =
        Outcome.ok { score := mcqScore a.mcqQuestions ansM,
                     correctCount := mcqCorrectCount a.mcqQuestions ansM,
                     totalQuestions := a.mcqQuestions.length }
      ∧ progressFor (submitMCQ s uid cid aid ansM now subId).1 uid cid =
          some { p with submissions := p.submissions ++
            [{ id := subId, assignmentId := aid, submittedAt := now,
               mcqAnswers := ansM, subjectiveAnswers := [],
               score := some (mcqScore a.mcqQuestions ansM), feedback := none,
               gradedAt := none }] }
      ∧ progressFor (submitMCQ (submitMCQ s uid cid aid ansM now subId).1
            uid cid aid ansM2 now2 subId2).1 uid cid =
          some { p with submissions := p.submissions ++
            [{ id := subId, assignmentId := aid, submittedAt := now,
               mcqAnswers := ansM, subjectiveAnswers := [],
               score := some (mcqScore a.mcqQuestions ansM), feedback := none,
               gradedAt := none },
             { id := subId2, assignmentId := aid, submittedAt := now2,
               mcqAnswers := ansM2, subjectiveAnswers := [],
               score := some (mcqScore a.mcqQuestions ansM2), feedback := none,
               gradedAt := none }] })
    ∧ (∀ p a, progressFor s uid cid = some p → findAssignment s aid = some a →
        a.atype = .subjective →
      (submitSubjective s uid cid aid ansS now subId).2 = Outcome.ok ()
      ∧ progressFor (submitSubjective s uid cid aid ansS now subId).1 uid cid =
          some { p with submissions := p.submissions ++
            [{ id := subId, assignmentId := aid, submittedAt := now,
               mcqAnswers := [], subjectiveAnswers := ansS,
               score := none, feedback := none, gradedAt := none }] }) := by
  refine ⟨?_, ?_, ?_, ?_, ?_⟩
  · intro h
    constructor
    · unfold submitMCQ
      rw [h]
    · unfold submitSubjective
      rw [h]
  · intro p hp ha
    constructor
    · unfold submitMCQ
      rw [hp, ha]
    · unfold submitSubjective
      rw [hp, ha]
  · intro p a hp ha
    constructor
    · intro ht
      simp only [submitMCQ, hp, ha]
      rw [if_pos ht]
    · intro ht
      simp only [submitSubjective, hp, ha]
      rw [if_pos ht]
  · intro p a hp ha ht
    have h1 := submitMCQ_run s uid cid aid ansM now subId p a hp ha ht
    have hfields : ∀ q : ProgressRecord, ∀ L : List Submission,
        ({ q with submissions := q.submissions ++ L } : ProgressRecord).userId = q.userId
        ∧ ({ q with submissions := q.submissions ++ L } : ProgressRecord).courseId =
            q.courseId := fun _ _ => ⟨rfl, rfl⟩
    have hp1 : progressFor (submitMCQ s uid cid aid ansM now subId).1 uid cid =
        some { p with submissions := p.submissions ++
          [{ id := subId, assignmentId := aid, submittedAt := now,
             mcqAnswers := ansM, subjectiveAnswers := [],
             score := some (mcqScore a.mcqQuestions ansM), feedback := none,
             gradedAt := none }] } := by
      rw [h1]
      exact progressFor_updateFirst s uid cid _ (fun q => hfields q _) p hp
    refine ⟨by rw [h1], hp1, ?_⟩
    · have ha1 : findAssignment (submitMCQ s uid cid aid ansM now subId).1 aid = some a := by
        rw [h1]
        exact ha
      have h2 := submitMCQ_run (submitMCQ s uid cid aid ansM now subId).1 uid cid aid
        ansM2 now2 subId2 _ a hp1 ha1 ht
      rw [h2]
      have := progressFor_updateFirst (submitMCQ s uid cid aid ansM now subId).1 uid cid
        (fun q => { q with submissions := q.submissions ++
          [{ id := subId2, assignmentId := aid, submittedAt := now2,
             mcqAnswers := ansM2, subjectiveAnswers := [],
             score := some (mcqScore a.mcqQuestions ansM2), feedback := none,
             gradedAt := none }] }) (fun q => hfields q _) _ hp1
      rw [this]
      simp

  · intro p a hp ha ht
    have h1 := submitSubjective_run s uid cid aid ansS now subId p a hp ha ht
    refine ⟨by rw [h1], ?_⟩
    rw [h1]
    exact progressFor_updateFirst s uid cid
      (fun q =>
        { q with
            submissions := q.submissions ++
              [{ id := subId, assignmentId := aid, submittedAt := now,
                 mcqAnswers := [], subjectiveAnswers := ansS,
                 score := none, feedback := none, gradedAt := none }] })
      (fun q => ⟨rfl, rfl⟩) p hp

/-- Witness for C5: learner 1 submits the scenario answers to the MCQ
assignment in a one-enrollment store; the response carries the graded
score and the stored record gains exactly that submission. -/
theorem submit_ops_spec_witness :
    progressFor exSubmitSt 1 8 = some exProgress0
    ∧ findAssignment exSubmitSt 3 = some exAssignment
    ∧ (submitMCQ exSubmitSt 1 8 3 exAnswers 5 21).2 =
        Outcome.ok { score := mcqScore exQuestions exAnswers,
                     correctCount := mcqCorrectCount exQuestions exAnswers,
                     totalQuestions := exQuestions.length }
    ∧ progressFor (submitMCQ exSubmitSt 1 8 3 exAnswers 5 21).1 1 8 =
        some { exProgress0 with submissions := exProgress0.submissions ++
          [{ id := 21, assignmentId := 3, submittedAt := 5,
             mcqAnswers := exAnswers, subjectiveAnswers := [],
             score := some (mcqScore exQuestions exAnswers), feedback := none,
             gradedAt := none }] } := by
  have h := (submit_ops_spec exSubmitSt 1 8 3 exAnswers exAnswers [] 5 21 6 22).2.2.2.1
      exProgress0 exAssignment (by decide) (by decide) (by decide)
  exact ⟨by decide, by decide, h.1, h.2.1⟩

theorem applyGrade_id (x : Submission) (sc : Option Nat) (fb : Option String) (now : Nat) :
    (applyGrade x sc fb now).id = x.id := rfl

theorem gradeSubmission_ok_inv (s : St) (coachId pid subId : Nat) (sc : Option Nat)
    (fb : Option String) (now : Nat) (s' : St) (r : Submission)
    (h : gradeSubmission s coachId pid subId sc fb now = (s', Outcome.ok r)) :
    ∃ p course sub,
      s.progresses.find? (fun q => q.id == pid) = some p
      ∧ findCourse s p.courseId = some course
      ∧ course.coachId = coachId
      ∧ p.submissions.find? (fun x => x.id == subId) = some sub
      ∧ r = applyGrade sub sc fb now
      ∧ s' = { s with
                progresses :=
                  updateFirst s.progresses (fun q => q.id == pid)
                    (fun q =>
                      { q with
                          submissions :=
                            updateFirst q.submissions (fun x => x.id == subId)
                              (fun x => applyGrade x sc fb now) }) } := by
  cases hfp : s.progresses.find? (fun q => q.id == pid) with
  | none =>
    simp only [gradeSubmission, hfp] at h
    simp at h
  | some p =>
    cases hfc : findCourse s p.courseId with
    | none =>
      simp only [gradeSubmission, hfp, hfc] at h
      simp at h
    | some course =>
      by_cases hcoach : course.coachId = coachId
      · cases hfs : p.submissions.find? (fun x => x.id == subId) with
        | none =>
          simp only [gradeSubmission, hfp, hfc, hfs] at h
          rw [if_neg (by simp [hcoach])] at h
          simp at h
        | some sub =>
          simp only [gradeSubmission, hfp, hfc, hfs] at h
          rw [if_neg (by simp [hcoach])] at h
          simp only [Prod.mk.injEq, Outcome.ok.injEq] at h
          exact ⟨p, course, sub, rfl, hfc, hcoach, hfs, h.2.symm, h.1.symm⟩
      · simp only [gradeSubmission, hfp, hfc] at h
        rw [if_pos hcoach] at h
        simp at h

theorem gradeSubmission_run (s : St) (coachId pid subId : Nat) (sc : Option Nat)
    (fb : Option String) (now : Nat) (p : ProgressRecord) (course : Course)
    (sub : Submission) (hfp : s.progresses.find? (fun q => q.id == pid) = some p)
    (hfc : findCourse s p.courseId = some course) (hcoach : course.coachId = coachId)
    (hfs : p.submissions.find? (fun x => x.id == subId) = some sub) :
    gradeSubmission s coachId pid subId sc fb now =
      ({ s with
          progresses :=
            updateFirst s.progresses (fun q => q.id == pid)
              (fun q =>
                { q with
                    submissions :=
                      updateFirst q.submissions (fun x => x.id == subId)
                        (fun x => applyGrade x sc fb now) }) },
       Outcome.ok (applyGrade sub sc fb now)) := by
  simp only [gradeSubmission, hfp, hfc, hfs]
  rw [if_neg (by simp [hcoach])]

/-- Claim C6: grading fails with NotFound when the Progress record or
the submission with the requested identifier is absent; grading twice
with different scores leaves the submission carrying the second call's
score, feedback and grading time — the second call overwrites the
first. -/
theorem grade_submission_spec (s : St) (coachId pid subId : Nat) (sc : Option Nat)
    (fb fb1 : Option String) (t v1 v2 t1 t2 : Nat) (f2 : String) :
    (s.progresses.find? (fun q => q.id == pid) = none →
      gradeSubmission s coachId pid subId sc fb t = (s, Outcome.notFound))
    ∧ (∀ p course, s.progresses.find? (fun q => q.id == pid) = some p →
        findCourse s p.courseId = some course → course.coachId = coachId →
        p.submissions.find? (fun x => x.id == subId) = none →
        gradeSubmission s coachId pid subId sc fb t = (s, Outcome.notFound))
    ∧ (∀ s1 r1 s2 r2,
        gradeSubmission s coachId pid subId (some v1) fb1 t1 = (s1, Outcome.ok r1) →
        gradeSubmission s1 coachId pid subId (some v2) (some f2) t2 = (s2, Outcome.ok r2) →
        ∃ p2 sub2, s2.progresses.find? (fun q => q.id == pid) = some p2
          ∧ p2.submissions.find? (fun x => x.id == subId) = some sub2
          ∧ sub2.score = some v2 ∧ sub2.feedback = some f2 ∧ sub2.gradedAt = some t2) := by
  refine ⟨?_, ?_, ?_⟩
  · intro h
    unfold gradeSubmission
    rw [h]
  · intro p course hfp hfc hcoach hfs
    simp only [gradeSubmission, hfp, hfc, hfs]
    rw [if_neg (by simp [hcoach])]
  · intro s1 r1 s2 r2 h1 h2
    obtain ⟨p', course', sub', hfp', hfc', hco', hfs', hr', hs'⟩ :=
      gradeSubmission_ok_inv _ _ _ _ _ _ _ _ _ h2
    subst hs'
    have hkeyp : ((p' : ProgressRecord).id == pid) = true :=
      (find?_eq_some_split _ _ _ hfp').1
    have hkeys : ((sub' : Submission).id == subId) = true :=
      (find?_eq_some_split _ _ _ hfs').1
    refine ⟨{ p' with
                submissions :=
                  updateFirst p'.submissions (fun x => x.id == subId)
                    (fun x => applyGrade x (some v2) (some f2) t2) },
      applyGrade sub' (some v2) (some f2) t2, ?_, ?_, rfl, rfl, rfl⟩
    · exact find?_updateFirst_of_found _ _ _ _ hfp' hkeyp
    · exact find?_updateFirst_of_found _ _ _ _ hfs' (by rw [applyGrade_id]; exact hkeys)

/-- Witness for C6: coach 2 grades submission 5 with 70/"good" at time
50 and re-grades with 80/"better" at time 60; the stored submission
ends with the second grade. -/
theorem grade_submission_spec_witness :
    ∃ p2 sub2,
      exGradeSt2.progresses.find? (fun q => q.id == 9) = some p2
      ∧ p2.submissions.find? (fun x => x.id == 5) = some sub2
      ∧ sub2.score = some 80 ∧ sub2.feedback = some "better"
      ∧ sub2.gradedAt = some 60 :=
  (grade_submission_spec exGradeSt 2 9 5 none none (some "good") 0 70 80 50 60 "better").2.2
    exGradeSt1
    { id := 5, assignmentId := 3, submittedAt := 2, mcqAnswers := [],
      subjectiveAnswers := ["ans"], score := some 70, feedback := some "good",
      gradedAt := some 50 }
    exGradeSt2
    { id := 5, assignmentId := 3, submittedAt := 2, mcqAnswers := [],
      subjectiveAnswers := ["ans"], score := some 80, feedback := some "better",
      gradedAt := some 60 }
    (by decide) (by decide)

/-- Claim C10: a successful grade call rewrites exactly the first
submission with the requested identifier inside exactly the first
Progress record with the requested identifier; a supplied score or
feedback overwrites the stored one while an omitted one is retained,
`gradedAt` is set unconditionally (so a call supplying neither field
still marks the submission graded), every other field of the
submission, every other submission, the record's completion sets
(untouched by the record update) and every other collection of the
store are unchanged. -/
theorem grade_frame_spec (s : St) (coachId pid subId : Nat) (sc : Option Nat)
    (fb : Option String) (now : Nat) (s' : St) (r : Submission)
    (h : gradeSubmission s coachId pid subId sc fb now = (s', Outcome.ok r)) :
    ∃ lp p lq pre sub post,
      s.progresses = lp ++ p :: lq
      ∧ (∀ q ∈ lp, ((q : ProgressRecord).id == pid) = false)
      ∧ ((p : ProgressRecord).id == pid) = true
      ∧ p.submissions = pre ++ sub :: post
      ∧ (∀ x ∈ pre, ((x : Submission).id == subId) = false)
      ∧ ((sub : Submission).id == subId) = true
      ∧ s'.progresses =
          lp ++ { p with submissions := pre ++ applyGrade sub sc fb now :: post } :: lq
      ∧ s'.courses = s.courses ∧ s'.assignments = s.assignments
      ∧ s'.paths = s.paths ∧ s'.pathEnrollments = s.pathEnrollments
      ∧ (sc = none → (applyGrade sub sc fb now).score = sub.score)
      ∧ (∀ v, sc = some v → (applyGrade sub sc fb now).score = some v)
      ∧ (fb = none → (applyGrade sub sc fb now).feedback = sub.feedback)
      ∧ (∀ f, fb = some f → (applyGrade sub sc fb now).feedback = some f)
      ∧ (applyGrade sub sc fb now).gradedAt = some now
      ∧ (applyGrade sub sc fb now).id = sub.id
      ∧ (applyGrade sub sc fb now).assignmentId = sub.assignmentId
      ∧ (applyGrade sub sc fb now).submittedAt = sub.submittedAt
      ∧ (applyGrade sub sc fb now).mcqAnswers = sub.mcqAnswers
      ∧ (applyGrade sub sc fb now).subjectiveAnswers = sub.subjectiveAnswers
      ∧ r = applyGrade sub sc fb now := by
  obtain ⟨p, course, sub, hfp, hfc, hcoach, hfs, hr, hs'⟩ :=
    gradeSubmission_ok_inv _ _ _ _ _ _ _ _ _ h
  obtain ⟨hkeyp, lp, lq, hsplitP, hlp⟩ := find?_eq_some_split _ _ _ hfp
  obtain ⟨hkeys, pre, post, hsplitS, hpre⟩ := find?_eq_some_split _ _ _ hfs
  refine ⟨lp, p, lq, pre, sub, post, hsplitP, hlp, hkeyp, hsplitS, hpre, hkeys,
    ?_, by rw [hs'], by rw [hs'], by rw [hs'], by rw [hs'], ?_, ?_, ?_, ?_,
    rfl, rfl, rfl, rfl, rfl, rfl, hr⟩
  · rw [hs']
    show updateFirst s.progresses _ _ = _
    rw [hsplitP, updateFirst_append_cons _ _ _ _ _ hlp hkeyp]
    have : updateFirst p.submissions (fun x => x.id == subId)
        (fun x => applyGrade x sc fb now) = pre ++ applyGrade sub sc fb now :: post := by
      rw [hsplitS, updateFirst_append_cons _ _ _ _ _ hpre hkeys]
    rw [this]
  · rintro rfl
    rfl
  · rintro v rfl
    rfl
  · rintro rfl
    rfl
  · rintro f rfl
    rfl

/-- Witness for C10: coach 2 grades submission 5 supplying neither
score nor feedback at time 99 — the stored score 40 and feedback "old"
survive and only `gradedAt` is set. -/
theorem grade_frame_spec_witness :
    ∃ lp p lq pre sub post,
      exGradeSt.progresses = lp ++ p :: lq
      ∧ (∀ q ∈ lp, ((q : ProgressRecord).id == 9) = false)
      ∧ ((p : ProgressRecord).id == 9) = true
      ∧ p.submissions = pre ++ sub :: post
      ∧ (∀ x ∈ pre, ((x : Submission).id == 5) = false)
      ∧ ((sub : Submission).id == 5) = true
      ∧ exGradeStAfter.progresses =
          lp ++ { p with submissions := pre ++ applyGrade sub none none 99 :: post } :: lq
      ∧ exGradeStAfter.courses = exGradeSt.courses
      ∧ exGradeStAfter.assignments = exGradeSt.assignments
      ∧ exGradeStAfter.paths = exGradeSt.paths
      ∧ exGradeStAfter.pathEnrollments = exGradeSt.pathEnrollments
      ∧ ((none : Option Nat) = none → (applyGrade sub none none 99).score = sub.score)
      ∧ (∀ v, (none : Option Nat) = some v → (applyGrade sub none none 99).score = some v)
      ∧ ((none : Option String) = none → (applyGrade sub none none 99).feedback = sub.feedback)
      ∧ (∀ f, (none : Option String) = some f →
          (applyGrade sub none none 99).feedback = some f)
      ∧ (applyGrade sub none none 99).gradedAt = some 99
      ∧ (applyGrade sub none none 99).id = sub.id
      ∧ (applyGrade sub none none 99).assignmentId = sub.assignmentId
      ∧ (applyGrade sub none none 99).submittedAt = sub.submittedAt
      ∧ (applyGrade sub none none 99).mcqAnswers = sub.mcqAnswers
      ∧ (applyGrade sub none none 99).subjectiveAnswers = sub.subjectiveAnswers
      ∧ { id := 5, assignmentId := 3, submittedAt := 2, mcqAnswers := [],
          subjectiveAnswers := ["ans"], score := some 40, feedback := some "old",
          gradedAt := some 99 } = applyGrade sub none none 99 :=
  grade_frame_spec exGradeSt 2 9 5 none none 99 exGradeStAfter
    { id := 5, assignmentId := 3, submittedAt := 2, mcqAnswers := [],
      subjectiveAnswers := ["ans"], score := some 40, feedback := some "old",
      gradedAt := some 99 }
    (by decide)

theorem foldl_pair_sum {α : Type} (f g : α → Nat) (l : List α) :
    ∀ a b : Nat, l.foldl (fun acc x => (acc.1 + f x, acc.2 + g x)) (a, b) =
      (a + (l.map f).sum, b + (l.map g).sum) := by
  induction l with
  | nil => intro a b; simp
  | cons x rest ih =>
    intro a b
    simp only [List.foldl_cons, List.map_cons, List.sum_cons]
    rw [ih (a + f x) (b + g x)]
    simp [Nat.add_assoc]

theorem pathTotals_eq (s : St) (uid : Nat) (courses : List Course) :
    pathTotals s uid courses =
      ((courses.map resourceTotal).sum,
       (courses.map fun c => completedFor s uid c.id).sum) := by
  unfold pathTotals
  rw [foldl_pair_sum]
  simp

/-- Claim C7: the path progress percent sums total and completed
resource counts over every course of the path, treats a missing
Progress record as zero completion rather than an error, rounds
`completed / total * 100` half-up, returns 0 when the total is 0, and
returns 0 for a learner enrolled in none of the path's courses. -/
theorem path_progress_percent_spec (s : St) (uid : Nat) (path : LearnPath) :
    (((pathCourses s path).map resourceTotal).sum = 0 →
      pathProgressPercent s uid path = 0)
    ∧ (0 < ((pathCourses s path).map resourceTotal).sum →
        (pathProgressPercent s uid path : ℤ) =
          round ((((pathCourses s path).map fun c => completedFor s uid c.id).sum : ℚ) /
            (((pathCourses s path).map resourceTotal).sum : ℚ) * 100))
    ∧ ((∀ c ∈ pathCourses s path, progressFor s uid c.id = none) →
        pathProgressPercent s uid path = 0) := by
  have hT : pathProgressPercent s uid path =
      progressPct ((pathCourses s path).map fun c => completedFor s uid c.id).sum
        ((pathCourses s path).map resourceTotal).sum := by
    unfold pathProgressPercent
    rw [pathTotals_eq]
  refine ⟨?_, ?_, ?_⟩
  · intro h
    rw [hT, h, progressPct_total_zero]
  · intro h
    rw [hT]
    exact progressPct_eq_round _ _ h
  · intro h
    have hc : ((pathCourses s path).map fun c => completedFor s uid c.id).sum = 0 := by
      apply List.sum_eq_zero
      intro x hx
      obtain ⟨c, hcmem, rfl⟩ := List.mem_map.mp hx
      unfold completedFor
      rw [h c hcmem]
    rw [hT, hc, progressPct_completed_zero]

/-- Witness for C7: learner 1 on a 6-resource path with 3 completed
resources; learner 7 is enrolled in none of the path's courses and
scores 0. -/
theorem path_progress_percent_spec_witness :
    0 < ((pathCourses exPathSt exPath).map resourceTotal).sum
    ∧ (pathProgressPercent exPathSt 1 exPath : ℤ) =
        round ((((pathCourses exPathSt exPath).map
            fun c => completedFor exPathSt 1 c.id).sum : ℚ) /
          (((pathCourses exPathSt exPath).map resourceTotal).sum : ℚ) * 100)
    ∧ (∀ c ∈ pathCourses exPathSt exPath, progressFor exPathSt 7 c.id = none)
    ∧ pathProgressPercent exPathSt 7 exPath = 0 :=
  ⟨by decide,
   (path_progress_percent_spec exPathSt 1 exPath).2.1 (by decide),
   by decide,
   (path_progress_percent_spec exPathSt 7 exPath).2.2 (by decide)⟩

/-- Claim C8: the path progress detail requires a PathEnrollment
(NotFound — "not started" — otherwise) and returns one entry per course
of the path in path order, each carrying that course's own progress
percent and completion timestamp, with percent 0, no timestamp and
`enrolled = false` for courses the learner has not enrolled in. -/
theorem path_progress_detail_spec (s : St) (uid pid : Nat) :
    (pathEnrollmentFor s uid pid = none →
      pathProgressDetail s uid pid = Outcome.notFound)
    ∧ (∀ entries, pathProgressDetail s uid pid = Outcome.ok entries →
        ∃ path, findPath s pid = some path
          ∧ entries.length = (pathCourses s path).length
          ∧ ∀ i c, (pathCourses s path)[i]? = some c →
              ∃ e, entries[i]? = some e
                ∧ e.order = i + 1 ∧ e.courseId = c.id ∧ e.title = c.title
                ∧ (∀ p, progressFor s uid c.id = some p →
                    e.enrolled = true ∧ e.progress = computeCourseProgressPercent p c
                    ∧ e.completedAt = p.completedAt)
                ∧ (progressFor s uid c.id = none →
                    e.enrolled = false ∧ e.progress = 0 ∧ e.completedAt = none)) := by
  constructor
  · intro h
    unfold pathProgressDetail
    rw [h]
  · intro entries h
    cases he : pathEnrollmentFor s uid pid with
    | none =>
      simp only [pathProgressDetail, he] at h
      exact absurd h (by simp)
    | some e0 =>
      cases hp : findPath s pid with
      | none =>
        simp only [pathProgressDetail, he, hp] at h
        exact absurd h (by simp)
      | some path =>
        simp only [pathProgressDetail, he, hp, Outcome.ok.injEq] at h
        subst h
        refine ⟨path, rfl, by simp [List.enum_length], ?_⟩
        intro i c hc
        refine ⟨detailEntry s uid i c, ?_, rfl, rfl, rfl, ?_, ?_⟩
        · rw [List.getElem?_map, List.getElem?_enum, hc]
          rfl
        · intro p hpp
          refine ⟨?_, ?_, ?_⟩
          · simp [detailEntry, hpp]
          · simp [detailEntry, computeCourseProgressPercent, completedFor, hpp]
          · simp [detailEntry, hpp]
        · intro hpp
          refine ⟨?_, ?_, ?_⟩
          · simp [detailEntry, hpp]
          · simp [detailEntry, completedFor, hpp, progressPct_completed_zero]
          · simp [detailEntry, hpp]

/-- Witness for C8: learner 1 started the two-course path; the detail
listing holds one entry per course in path order. -/
theorem path_progress_detail_spec_witness :
    ∃ path, findPath exPathSt 30 = some path
      ∧ [detailEntry exPathSt 1 0 exCourse,
         detailEntry exPathSt 1 1 exCourse2].length = (pathCourses exPathSt path).length
      ∧ ∀ i c, (pathCourses exPathSt path)[i]? = some c →
          ∃ e, [detailEntry exPathSt 1 0 exCourse,
                detailEntry exPathSt 1 1 exCourse2][i]? = some e
            ∧ e.order = i + 1 ∧ e.courseId = c.id ∧ e.title = c.title
            ∧ (∀ p, progressFor exPathSt 1 c.id = some p →
                e.enrolled = true ∧ e.progress = computeCourseProgressPercent p c
                ∧ e.completedAt = p.completedAt)
            ∧ (progressFor exPathSt 1 c.id = none →
                e.enrolled = false ∧ e.progress = 0 ∧ e.completedAt = none) :=
  (path_progress_detail_spec exPathSt 1 30).2
    [detailEntry exPathSt 1 0 exCourse, detailEntry exPathSt 1 1 exCourse2] rfl

theorem sanitizeOpts_eq (l1 l2 : List MCQOption) (h : List.Forall₂ OptionKeyEquiv l1 l2) :
    (l1.map fun o => ({ text := o.text } : SanOption)) =
      l2.map fun o => ({ text := o.text } : SanOption) := by
  induction h with
  | nil => rfl
  | cons hab htl ih =>
    simp only [List.map_cons, ih]
    congr 1
    exact congrArg (fun t => ({ text := t } : SanOption)) hab

theorem sanitizeQs_eq (l1 l2 : List MCQQuestion) (h : List.Forall₂ QuestionKeyEquiv l1 l2) :
    (l1.map fun q => ({ qid := q.qid, questionText := q.questionText,
                        options := q.options.map fun o => { text := o.text } } :
                       SanQuestion)) =
      l2.map fun q => ({ qid := q.qid, questionText := q.questionText,
                         options := q.options.map fun o => { text := o.text } } :
                        SanQuestion) := by
  induction h with
  | cons hab htl ih =>
    obtain ⟨hqid, htext, hopts⟩ := hab
    simp only [List.map_cons, ih]
    congr 1
    rw [hqid, htext, sanitizeOpts_eq _ _ hopts]
  | nil => rfl

theorem sanitize_eq_of_equiv (a1 a2 : Assignment) (h : AssignmentKeyEquiv a1 a2) :
    sanitizeAssignment a1 = sanitizeAssignment a2 := by
  obtain ⟨hid, htitle, htype, hcid, hsubj, hmcq⟩ := h
  unfold sanitizeAssignment
  rw [hid, htitle, htype, hcid, hsubj, sanitizeQs_eq _ _ hmcq]

theorem find?_map_sanitize (l1 l2 : List Assignment) (aid : Nat)
    (h : List.Forall₂ AssignmentKeyEquiv l1 l2) :
    (l1.find? fun a => a.id == aid).map sanitizeAssignment =
      (l2.find? fun a => a.id == aid).map sanitizeAssignment := by
  induction h with
  | nil => rfl
  | @cons a b tl1 tl2 hab htl ih =>
    have hid : a.id = b.id := hab.1
    by_cases hcase : (a.id == aid) = true
    · have e1 : List.find? (fun x => x.id == aid) (a :: tl1) = some a :=
        List.find?_cons_of_pos _ hcase
      have e2 : List.find? (fun x => x.id == aid) (b :: tl2) = some b :=
        List.find?_cons_of_pos _ (by rw [← hid]; exact hcase)
      rw [e1, e2]
      simp only [Option.map_some']
      rw [sanitize_eq_of_equiv _ _ hab]
    · have e1 : List.find? (fun x => x.id == aid) (a :: tl1) =
          List.find? (fun x => x.id == aid) tl1 :=
        List.find?_cons_of_neg _ (by simpa using hcase)
      have e2 : List.find? (fun x => x.id == aid) (b :: tl2) =
          List.find? (fun x => x.id == aid) tl2 :=
        List.find?_cons_of_neg _ (by rw [← hid]; simpa using hcase)
      rw [e1, e2]
      exact ih

theorem filter_map_sanitize (l1 l2 : List Assignment) (cid : Nat)
    (h : List.Forall₂ AssignmentKeyEquiv l1 l2) :
    ((l1.filter fun a => a.courseId == cid).map
        fun a => AssignmentView.redacted (sanitizeAssignment a)) =
      ((l2.filter fun a => a.courseId == cid).map
        fun a => AssignmentView.redacted (sanitizeAssignment a)) := by
  induction h with
  | nil => rfl
  | @cons a b tl1 tl2 hab htl ih =>
    have hcid : a.courseId = b.courseId := hab.2.2.2.1
    by_cases hcase : (a.courseId == cid) = true
    · have e1 : List.filter (fun x => x.courseId == cid) (a :: tl1) =
          a :: List.filter (fun x => x.courseId == cid) tl1 :=
        List.filter_cons_of_pos hcase
      have e2 : List.filter (fun x => x.courseId == cid) (b :: tl2) =
          b :: List.filter (fun x => x.courseId == cid) tl2 :=
        List.filter_cons_of_pos (by rw [← hcid]; exact hcase)
      rw [e1, e2]
      simp only [List.map_cons, ih]
      rw [sanitize_eq_of_equiv _ _ hab]
    · have e1 : List.filter (fun x => x.courseId == cid) (a :: tl1) =
          List.filter (fun x => x.courseId == cid) tl1 :=
        List.filter_cons_of_neg (by simpa using hcase)
      have e2 : List.filter (fun x => x.courseId == cid) (b :: tl2) =
          List.filter (fun x => x.courseId == cid) tl2 :=
        List.filter_cons_of_neg (by rw [← hcid]; simpa using hcase)
      rw [e1, e2]
      exact ih

/-- Claim C9: the assignment read endpoints answer a student with MCQ
options reduced to their text — the `isCorrect` flags are removed — so
two stores whose assignments differ only in which options are marked
correct produce identical responses to every student request: the
answer key never flows to students. -/
theorem student_answer_key_confidential (s1 s2 : St) (aid cid : Nat)
    (h : List.Forall₂ AssignmentKeyEquiv s1.assignments s2.assignments) :
    getAssignment s1 .student aid = getAssignment s2 .student aid
    ∧ listCourseAssignments s1 .student cid = listCourseAssignments s2 .student cid := by
  constructor
  · have hmap := find?_map_sanitize _ _ aid h
    unfold getAssignment findAssignment
    cases h1 : s1.assignments.find? fun a => a.id == aid with
    | none =>
      rw [h1] at hmap
      cases h2 : s2.assignments.find? fun a => a.id == aid with
      | none => rfl
      | some b =>
        rw [h2] at hmap
        exact absurd hmap (by simp)
    | some a =>
      rw [h1] at hmap
      cases h2 : s2.assignments.find? fun a => a.id == aid with
      | none =>
        rw [h2] at hmap
        exact absurd hmap (by simp)
      | some b =>
        rw [h2] at hmap
        simp only [Option.map_some', Option.some.injEq] at hmap
        simp [hmap]
  · unfold listCourseAssignments
    simp only [reduceIte]
    exact filter_map_sanitize _ _ cid h

/-- Witness for C9: two one-assignment stores whose only difference is
which option of the single question is marked correct; a student sees
identical responses from both endpoints. -/
theorem student_answer_key_confidential_witness :
    List.Forall₂ AssignmentKeyEquiv exStKey1.assignments exStKey2.assignments
    ∧ getAssignment exStKey1 .student 3 = getAssignment exStKey2 .student 3
    ∧ listCourseAssignments exStKey1 .student 8 = listCourseAssignments exStKey2 .student 8 :=
  have hF : List.Forall₂ AssignmentKeyEquiv exStKey1.assignments exStKey2.assignments :=
    List.Forall₂.cons
      ⟨rfl, rfl, rfl, rfl, rfl,
        List.Forall₂.cons
          ⟨rfl, rfl, List.Forall₂.cons rfl (List.Forall₂.cons rfl List.Forall₂.nil)⟩
          List.Forall₂.nil⟩
      List.Forall₂.nil
  ⟨hF, (student_answer_key_confidential exStKey1 exStKey2 3 8 hF).1,
    (student_answer_key_confidential exStKey1 exStKey2 3 8 hF).2⟩

end LMS
